import Mathlib

/-!
Shallow embedding of the scroll/page-navigation engine of
`teleprompter.py` (ShaunPrice/Teleprompter).

The embedding follows the source:
* module constants `line_spacing = 60`, `page_anchor_y = 120`;
* `compute_page_anchors` (teleprompter.py, lines 141-153);
* `jump_to_anchor`, `get_current_top_index`, `jump_next_page`,
  `jump_prev_page` (lines 157-182);
* the per-frame scroll tick and wrap (lines 314-318);
* the presenter code-set selection (lines 339-358);
* the key-dispatch chain of the main loop (lines 360-423).

Machine-level details modelled explicitly:
* Python's `round` is round-half-to-even; `pyRoundDiv n d` computes it
  for the rational `n / d` with `d > 0`.
* `key = key_raw & 0xFF` is `key_raw % 256` on mathematical integers
  (Python ints are two's-complement-infinite, so `& 0xFF` is `mod 256`
  for negatives such as the no-key value `-1` as well).
* `str.lstrip()` drops leading whitespace; the scripts are produced by
  `splitlines`, so only intra-line whitespace characters occur and the
  ASCII whitespace predicate of `Char.isWhitespace` is faithful here.
* File-system reads (the reload glob) are modelled by an `Option`
  parameter carrying the parsed lines when at least one file was found.
-/

/-- `line_spacing = 60` (teleprompter.py line 59). -/
def line_spacing : Int := 60

/-- `page_anchor_y = 120` (teleprompter.py line 139). -/
def page_anchor_y : Int := 120

/-- Round-half-to-even of the rational `n / d`, for `d > 0`: this is what
Python's built-in `round((page_anchor_y - text_y) / float(line_spacing))`
computes (the quotient is exact in double precision whenever it is a
half-integer, so the tie direction is the mathematical one). -/
def pyRoundDiv (n d : Int) : Int :=
  let q := Int.fdiv n d
  let r := n - q * d
  if 2 * r < d then q
  else if d < 2 * r then q + 1
  else if q % 2 = 0 then q else q + 1

/-- Python `str.lstrip()` on script lines: drop leading whitespace. -/
def pyLstrip (s : String) : String :=
  String.mk (s.data.dropWhile Char.isWhitespace)

/-- Python `s.startswith(t)`: the first `len(t)` characters of `s`
equal `t` (Python strings are character sequences, so this is
`s[:len(t)] == t`). -/
def pyStartswith (s t : String) : Bool :=
  s.data.take t.data.length == t.data

/-- `ln.lstrip().startswith("========")` (teleprompter.py lines 146-147). -/
def isDivider (ln : String) : Bool :=
  pyStartswith (pyLstrip ln) "========"

/-- The anchor contributed by a divider at index `i`:
`i + 1 if i + 1 < len(lines) else i` (teleprompter.py line 149). -/
def markerAnchor (linesLen : Nat) (i : Nat) : Int :=
  if i + 1 < linesLen then (i : Int) + 1 else (i : Int)

/-- Insert `x` into a strictly sorted list, skipping it when present:
the building block for Python's `sorted(set(...))`. -/
def insertUniq (x : Int) : List Int → List Int
  | [] => [x]
  | y :: ys =>
    if x < y then x :: y :: ys
    else if x = y then y :: ys
    else y :: insertUniq x ys

/-- Python `sorted(set(l))`: strictly increasing, duplicate-free. -/
def sortedSet (l : List Int) : List Int := l.foldr insertUniq []

/-- `compute_page_anchors` (teleprompter.py lines 141-153): index 0, plus
the post-divider index for every divider line, filtered to valid indices,
deduplicated and sorted. -/
def compute_page_anchors (lines : List String) : List Int :=
  let anchors : List Int :=
    0 :: lines.enum.filterMap (fun p =>
      if isDivider p.2 then some (markerAnchor lines.length p.1) else none)
  sortedSet (anchors.filter (fun a => decide (0 ≤ a ∧ a < (lines.length : Int))))

/-- The mutable state of the display loop that the navigation engine
touches (teleprompter.py lines 56-57, 128-138, 155). `scrolling` is the
negation of the spec's `paused`. -/
structure TState where
  text_y : Int
  scrolling : Bool
  page_mode : Bool
  blackout_on : Bool
  scroll_speed : Int
  script_lines : List String
  page_anchors : List Int
  fullscreen : Bool
  focus_on : Bool
  debug_keys : Bool
  quit : Bool
  deriving DecidableEq, Repr

/-- `jump_to_anchor` (teleprompter.py lines 157-159). -/
def jump_to_anchor (st : TState) (anchor_idx : Int) : TState :=
  { st with text_y := page_anchor_y - anchor_idx * line_spacing }

/-- `get_current_top_index` (teleprompter.py lines 161-163):
`max(0, int(round((page_anchor_y - text_y) / float(line_spacing))))`. -/
def get_current_top_index (st : TState) : Int :=
  max 0 (pyRoundDiv (page_anchor_y - st.text_y) line_spacing)

/-- `jump_next_page` (teleprompter.py lines 165-171): first anchor in
list order with `a > cur_top + 1`, else no change. -/
def jump_next_page (st : TState) : TState :=
  match st.page_anchors.find? (fun a => decide (get_current_top_index st + 1 < a)) with
  | some a => jump_to_anchor st a
  | none => st

/-- The accumulator loop of `jump_prev_page` (teleprompter.py lines
175-180): walk the list, remembering the last element `< cur`, stopping
at the first element `≥ cur`. -/
def prevAnchorLoop (cur : Int) : List Int → Option Int → Option Int
  | [], prev => prev
  | a :: rest, prev =>
    if a < cur then prevAnchorLoop cur rest (some a) else prev

/-- `jump_prev_page` (teleprompter.py lines 173-182). -/
def jump_prev_page (st : TState) : TState :=
  match prevAnchorLoop (get_current_top_index st) st.page_anchors none with
  | some a => jump_to_anchor st a
  | none => st

/-- The candidate loop of the switch-into-page-mode branch
(teleprompter.py lines 394-399): last anchor `≤ cur`, default 0. -/
def candidateLoop (cur : Int) : List Int → Int → Int
  | [], c => c
  | a :: rest, c =>
    if a ≤ cur then candidateLoop cur rest a else c

/-- The page-mode toggle branch (teleprompter.py lines 388-403):
flip `page_mode`; entering page mode aligns to the greatest anchor at or
before the current top line (default 0), leaving it keeps the current
top line at the anchor row. -/
def togglePageMode (st : TState) : TState :=
  let pm := !st.page_mode
  let cur := get_current_top_index st
  if pm then
    jump_to_anchor { st with page_mode := pm } (candidateLoop cur st.page_anchors 0)
  else
    { st with page_mode := pm, text_y := page_anchor_y - cur * line_spacing }

/-- The blackout toggle branch (teleprompter.py lines 404-406). -/
def toggleBlackout (st : TState) : TState :=
  { st with blackout_on := !st.blackout_on }

/-- The `previous` half of the prev/next branch (teleprompter.py lines
378-382): page jump in page mode, speed down (floor 1) otherwise. -/
def prevAction (st : TState) : TState :=
  if st.page_mode then jump_prev_page st
  else { st with scroll_speed := max (st.scroll_speed - 1) 1 }

/-- The `next` half of the prev/next branch (teleprompter.py lines
383-387): page jump in page mode, speed up (cap 20) otherwise. -/
def nextAction (st : TState) : TState :=
  if st.page_mode then jump_next_page st
  else { st with scroll_speed := min (st.scroll_speed + 1) 20 }

/-- The reload branch (teleprompter.py lines 407-414). `found` carries
the parsed lines of the re-globbed file when at least one `.txt` file
was found, `none` when the glob came back empty; `fh` is the viewport
height. -/
def reloadAction (fh : Int) (found : Option (List String)) (st : TState) : TState :=
  match found with
  | none => st
  | some newLines =>
    { st with script_lines := newLines
              text_y := fh
              page_anchors := compute_page_anchors newLines }

/-- The eight per-action code sets computed before the dispatch chain
(teleprompter.py lines 341-358). -/
structure CodeSets where
  KEY_BLACK_RAW : List Int
  KEY_LEFT_RAW : List Int
  KEY_RIGHT_RAW : List Int
  KEY_PAGEUP_RAW : List Int
  KEY_PAGEDOWN_RAW : List Int
  KEY_PLAY_RAW : List Int
  KEY_PREV_ASCII : List Int
  KEY_NEXT_ASCII : List Int
  deriving DecidableEq, Repr

/-- The built-in generic defaults (teleprompter.py lines 350-358). -/
def genericCodeSets : CodeSets :=
  { KEY_BLACK_RAW := [98, 66]
    KEY_LEFT_RAW := [81, 2424832]
    KEY_RIGHT_RAW := [83, 2555904]
    KEY_PAGEUP_RAW := [65365, 2162688]
    KEY_PAGEDOWN_RAW := [65366, 2228224]
    KEY_PLAY_RAW := [13, 0x74, 65474]
    KEY_PREV_ASCII := [60]
    KEY_NEXT_ASCII := [62] }

/-- A loaded presenter-profile entry, as parsed from `presenters.json`:
a mapping from code-set name to list of integer codes. -/
abbrev ProfileEntry : Type := List (String × List Int)

/-- The loaded `_presenter_maps`: profile name to entry. -/
abbrev ProfileMaps : Type := List (String × ProfileEntry)

/-- `m.get(k, [])` on a profile entry. -/
def entryGet (m : ProfileEntry) (k : String) : List Int :=
  (m.lookup k).getD []

/-- `_presenter_maps.get(presenter_profile) or {}` (teleprompter.py
line 340): the entry when the name is a key (an empty entry stays
empty, as `or {}` maps falsy values to `{}`), else the empty entry. -/
def profileMapsGet (maps : ProfileMaps) (name : String) : ProfileEntry :=
  (maps.lookup name).getD []

/-- The code-set selection of teleprompter.py lines 339-358: a non-empty
profile name other than `"generic"` takes each set from the loaded entry
(each missing key giving the empty set), while `"generic"` (or an empty
name) takes the built-in generic defaults. -/
def selectCodeSets (profile : String) (maps : ProfileMaps) : CodeSets :=
  if profile ≠ "" ∧ profile ≠ "generic" then
    let m := profileMapsGet maps profile
    { KEY_BLACK_RAW := entryGet m "KEY_BLACK_RAW"
      KEY_LEFT_RAW := entryGet m "KEY_LEFT_RAW"
      KEY_RIGHT_RAW := entryGet m "KEY_RIGHT_RAW"
      KEY_PAGEUP_RAW := entryGet m "KEY_PAGEUP_RAW"
      KEY_PAGEDOWN_RAW := entryGet m "KEY_PAGEDOWN_RAW"
      KEY_PLAY_RAW := entryGet m "KEY_PLAY_RAW"
      KEY_PREV_ASCII := entryGet m "KEY_PREV_ASCII"
      KEY_NEXT_ASCII := entryGet m "KEY_NEXT_ASCII" }
  else genericCodeSets

/-- The all-empty code sets an unknown profile name produces. -/
def emptyCodeSets : CodeSets :=
  { KEY_BLACK_RAW := []
    KEY_LEFT_RAW := []
    KEY_RIGHT_RAW := []
    KEY_PAGEUP_RAW := []
    KEY_PAGEDOWN_RAW := []
    KEY_PLAY_RAW := []
    KEY_PREV_ASCII := []
    KEY_NEXT_ASCII := [] }

/-- The key-dispatch chain of the main loop (teleprompter.py lines
360-423) applied to one polled event. `key_raw` is the `cv2.waitKey`
return value; the masked `key` is `key_raw & 0xFF = key_raw % 256`.
`fh` is the viewport height and `reloadFiles` the outcome of the reload
branch's glob, as in `reloadAction`. Window-property calls, printing and
log writing have no navigation-state effect and are dropped. -/
def processKey (fh : Int) (cs : CodeSets) (reloadFiles : Option (List String))
    (key_raw : Int) (st : TState) : TState :=
  let key := key_raw % 256
  if key = 113 then { st with quit := true }
  else if key = 111 then { st with fullscreen := !st.fullscreen }
  else if key = 102 then { st with focus_on := !st.focus_on }
  else if key = 32 ∨ key = 27 then
    if key = 27 ∧ (27 ∈ cs.KEY_PLAY_RAW ∨ key_raw ∈ cs.KEY_PLAY_RAW) then
      st
    else { st with scrolling := !st.scrolling }
  else if key_raw ∈ cs.KEY_LEFT_RAW ∨ key_raw ∈ cs.KEY_PAGEUP_RAW
            ∨ key ∈ cs.KEY_PREV_ASCII then
    prevAction st
  else if key_raw ∈ cs.KEY_RIGHT_RAW ∨ key_raw ∈ cs.KEY_PAGEDOWN_RAW
            ∨ key ∈ cs.KEY_NEXT_ASCII then
    nextAction st
  else if key_raw ∈ cs.KEY_PLAY_RAW ∨ key = 112 ∨ key = 80 then
    togglePageMode st
  else if key_raw ∈ cs.KEY_BLACK_RAW ∨ key = 98 ∨ key = 66 then
    toggleBlackout st
  else if (key = 46 ∧ 46 ∉ cs.KEY_BLACK_RAW) ∨ key = 114 ∨ key = 82 then
    reloadAction fh reloadFiles st
  else if key = 107 ∨ key = 75 then { st with debug_keys := !st.debug_keys }
  else st

/-- The per-frame scroll tick and wrap (teleprompter.py lines 314-318):
decrement while scrolling in free-scroll without blackout, then reset to
the viewport height once the whole document is above the top. -/
def frameTick (fh : Int) (st : TState) : TState :=
  let st1 :=
    if st.scrolling && !st.page_mode && !st.blackout_on then
      { st with text_y := st.text_y - st.scroll_speed }
    else st
  if st1.text_y + (st1.script_lines.length : Int) * line_spacing < 0 then
    { st1 with text_y := fh }
  else st1

/-- A concrete free-scroll session state used to evaluate the dispatch
chain on concrete events (viewport height 720, speed 3). -/
def st0 : TState :=
  { text_y := 720
    scrolling := true
    page_mode := false
    blackout_on := false
    scroll_speed := 3
    script_lines := ["a", "========", "b", "c"]
    page_anchors := [0, 2]
    fullscreen := true
    focus_on := true
    debug_keys := false
    quit := false }

/-- Code sets of a profile that maps Escape (27) to the play/page
toggle, as `presenters.json` may. -/
def playEscapeSets : CodeSets :=
  { emptyCodeSets with KEY_PLAY_RAW := [27] }

/-- An 11-line script with dividers at indices 4 and 9, so that
`compute_page_anchors` yields `[0, 5, 10]`. -/
def c4lines : List String :=
  ["L0", "L1", "L2", "L3", "========", "L5", "L6", "L7", "L8", "========", "L10"]

/-- A paged state on `c4lines` aligned to the last anchor (10). -/
def c4stLast : TState :=
  { st0 with page_mode := true
             text_y := page_anchor_y - 10 * line_spacing
             script_lines := c4lines
             page_anchors := [0, 5, 10] }

/-- A paged state on `c4lines` aligned to the first anchor (0). -/
def c4stFirst : TState :=
  { c4stLast with text_y := page_anchor_y - 0 * line_spacing }

/-- An 8-line divider-free script: its only anchor is 0. -/
def c3lines : List String :=
  ["l0", "l1", "l2", "l3", "l4", "l5", "l6", "l7"]

/-- A free-scroll state on `c3lines` whose top line is line 7, far from
the only anchor 0. -/
def c3st : TState :=
  { st0 with text_y := page_anchor_y - 7 * line_spacing
             script_lines := c3lines
             page_anchors := [0] }

/-- The anchor-derivation rule in the spec's words: a valid index that
is 0 or follows a divider line (the divider's own index when it is the
last line). Membership in this set, together with sortedness and
freedom from duplicates, is the spec's description of the anchor
list. -/
def specAnchorSet (lines : List String) (a : Int) : Prop :=
  (0 ≤ a ∧ a < (lines.length : Int)) ∧
  (a = 0 ∨ ∃ i : Nat, ∃ ln : String, lines[i]? = some ln ∧ isDivider ln = true ∧
    a = if i + 1 < lines.length then (i : Int) + 1 else (i : Int))

/- ------------------------------------------------------------------ -/
/- Helper lemmas -/
/- ------------------------------------------------------------------ -/

theorem line_spacing_pos : (0 : Int) < line_spacing := by
  norm_num [line_spacing]

theorem pyRoundDiv_def (n d : Int) :
    pyRoundDiv n d =
      if 2 * (n - Int.fdiv n d * d) < d then Int.fdiv n d
      else if d < 2 * (n - Int.fdiv n d * d) then Int.fdiv n d + 1
      else if Int.fdiv n d % 2 = 0 then Int.fdiv n d else Int.fdiv n d + 1 := rfl

theorem pyRoundDiv_mul_cancel (k d : Int) (hd : 0 < d) :
    pyRoundDiv (k * d) d = k := by
  rw [pyRoundDiv_def, Int.mul_fdiv_cancel k (by omega : d ≠ 0)]
  have h : k * d - k * d = 0 := by ring
  rw [h, if_pos (by omega : 2 * (0 : Int) < d)]

/-- Round-half-to-even lands within half a denominator of the exact
value: `-d ≤ 2 * (n - pyRoundDiv n d * d) ≤ d`. -/
theorem pyRoundDiv_sub_bounds (n d : Int) (hd : 0 < d) :
    -d ≤ 2 * (n - pyRoundDiv n d * d) ∧ 2 * (n - pyRoundDiv n d * d) ≤ d := by
  have hq := Int.fdiv_add_fmod n d
  have hr0 : 0 ≤ n.fmod d := Int.fmod_nonneg' n hd
  have hrd : n.fmod d < d := Int.fmod_lt_of_pos n hd
  have hn : n - Int.fdiv n d * d = n.fmod d := by
    have hc : d * Int.fdiv n d = Int.fdiv n d * d := mul_comm _ _
    linarith [hq]
  have hexp : n - (Int.fdiv n d + 1) * d = n.fmod d - d := by
    have he : (Int.fdiv n d + 1) * d = Int.fdiv n d * d + d := add_one_mul _ _
    linarith [hn]
  rcases lt_trichotomy (2 * n.fmod d) d with h1 | h1 | h1
  · have hv : pyRoundDiv n d = Int.fdiv n d := by
      rw [pyRoundDiv_def, hn, if_pos h1]
    rw [hv, hn]
    omega
  · by_cases h2 : Int.fdiv n d % 2 = 0
    · have hv : pyRoundDiv n d = Int.fdiv n d := by
        rw [pyRoundDiv_def, hn, if_neg (by omega), if_neg (by omega), if_pos h2]
      rw [hv, hn]
      omega
    · have hv : pyRoundDiv n d = Int.fdiv n d + 1 := by
        rw [pyRoundDiv_def, hn, if_neg (by omega), if_neg (by omega), if_neg h2]
      rw [hv, hexp]
      omega
  · have hv : pyRoundDiv n d = Int.fdiv n d + 1 := by
      rw [pyRoundDiv_def, hn, if_neg (by omega), if_pos h1]
    rw [hv, hexp]
    omega

/-- At an anchor-aligned offset the reconstructed top index is the
anchor itself: the rounding in `get_current_top_index` is exact there. -/
theorem top_of_anchor (st : TState) (a : Int) (ha : 0 ≤ a)
    (h : st.text_y = page_anchor_y - a * line_spacing) :
    get_current_top_index st = a := by
  unfold get_current_top_index
  rw [h]
  have hs : page_anchor_y - (page_anchor_y - a * line_spacing) = a * line_spacing := by
    ring
  rw [hs, pyRoundDiv_mul_cancel a line_spacing line_spacing_pos]
  omega

/-- In a `<`-sorted list the first element satisfying the predicate is
minimal among all satisfying elements. -/
theorem find?_sorted_min {l : List Int} {p : Int → Bool} {a : Int}
    (hs : l.Sorted (· < ·)) (hf : l.find? p = some a) :
    ∀ b ∈ l, p b → a ≤ b := by
  induction l with
  | nil => simp at hf
  | cons x rest ih =>
    rw [List.sorted_cons] at hs
    by_cases hx : p x
    · rw [List.find?_cons_of_pos _ hx] at hf
      cases hf
      intro b hb _
      rcases List.mem_cons.mp hb with h | h
      · omega
      · exact le_of_lt (hs.1 b h)
    · rw [List.find?_cons_of_neg _ hx] at hf
      intro b hb hpb
      rcases List.mem_cons.mp hb with h | h
      · subst h
        exact absurd hpb hx
      · exact ih hs.2 hf b h hpb

/-- `prevAnchorLoop` returns the accumulator when the list opens with a
non-qualifying element (the Python loop breaks immediately). -/
theorem prevAnchorLoop_head_stop {cur : Int} {l : List Int} {acc : Option Int}
    (h : ∀ a ∈ l, ¬ a < cur) : prevAnchorLoop cur l acc = acc := by
  cases l with
  | nil => rfl
  | cons a rest =>
    have := h a (List.mem_cons_self a rest)
    simp only [prevAnchorLoop, if_neg this]

/-- `prevAnchorLoop` only ever returns list elements or the initial
accumulator. -/
theorem prevAnchorLoop_mem {cur : Int} {l : List Int} {acc : Option Int} {b : Int}
    (h : prevAnchorLoop cur l acc = some b) : b ∈ l ∨ acc = some b := by
  induction l generalizing acc with
  | nil => exact Or.inr h
  | cons a rest ih =>
    simp only [prevAnchorLoop] at h
    split at h
    · rcases ih h with hmem | hacc
      · exact Or.inl (List.mem_cons_of_mem a hmem)
      · have hab : b = a := (Option.some.inj hacc).symm
        rw [hab]
        exact Or.inl (List.mem_cons_self a rest)
    · exact Or.inr h

/-- On a `<`-sorted list, `prevAnchorLoop` finds the greatest element
strictly below `cur` when one exists. -/
theorem prevAnchorLoop_sorted_max {cur : Int} {l : List Int} {b : Int}
    (hs : l.Sorted (· < ·)) (hb : b ∈ l) (hblt : b < cur)
    (hmax : ∀ c ∈ l, c < cur → c ≤ b) (acc : Option Int) :
    prevAnchorLoop cur l acc = some b := by
  induction l generalizing acc with
  | nil => simp at hb
  | cons a rest ih =>
    rw [List.sorted_cons] at hs
    have ha : a < cur := by
      rcases List.mem_cons.mp hb with h | h
      · omega
      · have := hs.1 b h
        omega
    simp only [prevAnchorLoop, if_pos ha]
    by_cases hbr : b ∈ rest
    · exact ih hs.2 hbr (fun c hc hcc => hmax c (List.mem_cons_of_mem a hc) hcc) _
    · have hba : b = a := by
        rcases List.mem_cons.mp hb with h | h
        · exact h
        · exact absurd h hbr
      subst hba
      have hnone : ∀ c ∈ rest, ¬ c < cur := by
        intro c hc
        have h1 : b < c := hs.1 c hc
        intro hcc
        have := hmax c (List.mem_cons_of_mem b hc) hcc
        omega
      exact prevAnchorLoop_head_stop hnone

/-- `candidateLoop` returns the accumulator when the list opens with a
non-qualifying element (the Python loop breaks immediately). -/
theorem candidateLoop_head_stop {cur : Int} {l : List Int} {c : Int}
    (h : ∀ a ∈ l, ¬ a ≤ cur) : candidateLoop cur l c = c := by
  cases l with
  | nil => rfl
  | cons a rest =>
    have := h a (List.mem_cons_self a rest)
    simp only [candidateLoop, if_neg this]

/-- `candidateLoop` only ever returns list elements or the initial
accumulator. -/
theorem candidateLoop_mem {cur : Int} {l : List Int} {c : Int} :
    candidateLoop cur l c = c ∨ candidateLoop cur l c ∈ l := by
  induction l generalizing c with
  | nil => exact Or.inl rfl
  | cons a rest ih =>
    simp only [candidateLoop]
    split
    · rcases @ih a with h | h
      · rw [h]
        exact Or.inr (List.mem_cons_self a rest)
      · exact Or.inr (List.mem_cons_of_mem a h)
    · exact Or.inl rfl

/-- On a `<`-sorted list containing `cur`, `candidateLoop` returns
`cur` itself (the greatest element `≤ cur`). -/
theorem candidateLoop_sorted_self {cur : Int} {l : List Int}
    (hs : l.Sorted (· < ·)) (hmem : cur ∈ l) (c : Int) :
    candidateLoop cur l c = cur := by
  induction l generalizing c with
  | nil => simp at hmem
  | cons a rest ih =>
    rw [List.sorted_cons] at hs
    have ha : a ≤ cur := by
      rcases List.mem_cons.mp hmem with h | h
      · omega
      · have := hs.1 cur h
        omega
    simp only [candidateLoop, if_pos ha]
    by_cases hcr : cur ∈ rest
    · exact ih hs.2 hcr a
    · have hca : cur = a := by
        rcases List.mem_cons.mp hmem with h | h
        · exact h
        · exact absurd h hcr
      subst hca
      exact candidateLoop_head_stop (fun b hb => by
        have := hs.1 b hb
        omega)

/-- Membership in `insertUniq`. -/
theorem mem_insertUniq {x y : Int} {l : List Int} :
    y ∈ insertUniq x l ↔ y = x ∨ y ∈ l := by
  induction l with
  | nil => simp [insertUniq]
  | cons a rest ih =>
    simp only [insertUniq]
    split
    · simp [List.mem_cons]
    · split
      · rename_i h1 h2
        subst h2
        simp [List.mem_cons]
      · simp only [List.mem_cons, ih]
        tauto

/-- `insertUniq` preserves strict sortedness. -/
theorem sorted_insertUniq {x : Int} {l : List Int}
    (hs : l.Sorted (· < ·)) : (insertUniq x l).Sorted (· < ·) := by
  induction l with
  | nil => simp [insertUniq]
  | cons a rest ih =>
    rw [List.sorted_cons] at hs
    simp only [insertUniq]
    split
    · rename_i h1
      rw [List.sorted_cons]
      refine ⟨?_, List.sorted_cons.mpr hs⟩
      intro b hb
      rcases List.mem_cons.mp hb with h | h
      · omega
      · have := hs.1 b h
        omega
    · split
      · exact List.sorted_cons.mpr hs
      · rename_i h1 h2
        rw [List.sorted_cons]
        refine ⟨?_, ih hs.2⟩
        intro b hb
        rcases mem_insertUniq.mp hb with h | h
        · omega
        · exact hs.1 b h

/-- Membership in `sortedSet`. -/
theorem mem_sortedSet {x : Int} {l : List Int} :
    x ∈ sortedSet l ↔ x ∈ l := by
  induction l with
  | nil => simp [sortedSet]
  | cons a rest ih =>
    simp only [sortedSet, List.foldr_cons]
    rw [mem_insertUniq]
    simp only [List.mem_cons]
    rw [show List.foldr insertUniq [] rest = sortedSet rest from rfl, ih]

/-- `sortedSet` output is strictly sorted. -/
theorem sorted_sortedSet (l : List Int) : (sortedSet l).Sorted (· < ·) := by
  induction l with
  | nil => simp [sortedSet]
  | cons a rest ih =>
    simp only [sortedSet, List.foldr_cons]
    exact sorted_insertUniq ih

/- ------------------------------------------------------------------ -/
/- Claim theorems -/
/- ------------------------------------------------------------------ -/

/-- C1: the claim says an unrecognized profile name (including the
default `"auto"` with no configuration entry) resolves events with the
built-in generic code sets. The code does not: `selectCodeSets "auto"`
over an empty profile mapping yields the all-empty code sets, differing
from the generic defaults, and a left-arrow event (raw 2424832) that the
generic sets map to `previous` is a complete no-op under it, against the
code's own `auto | generic | ...` documentation of the default profile
name. -/
theorem C1_unknown_profile_gives_empty_sets :
    selectCodeSets "auto" [] = emptyCodeSets ∧
    selectCodeSets "auto" [] ≠ genericCodeSets ∧
    processKey 720 (selectCodeSets "auto" []) none 2424832 st0 = st0 ∧
    processKey 720 genericCodeSets none 2424832 st0 =
      { st0 with scroll_speed := 2 } := by decide

/-- C2: the claim says that when the active profile maps Escape (27) to
the play/page-toggle code set, an Escape event performs the page-mode
toggle (the remappable action wins over pause). In the code the
Escape-in-play-set case falls into a `pass` branch whose `else`-chain
(where the toggle lives) is unreachable: the event is a complete no-op,
neither toggling page mode (which would change the state, as the third
conjunct shows) nor pausing; without the mapping, Escape pauses. -/
theorem C2_escape_play_mapping_noop :
    processKey 720 playEscapeSets none 27 st0 = st0 ∧
    processKey 720 genericCodeSets none 27 st0 = { st0 with scrolling := false } ∧
    togglePageMode st0 ≠ st0 := by decide

/-- C5: `compute_page_anchors` returns exactly the anchors of the
derivation rule: a sorted, duplicate-free list whose members are the
valid indices that are 0 or follow a divider line (the divider's own
index when last); and the two reference examples evaluate as stated. -/
theorem C5_anchor_derivation_rule (lines : List String) :
    ((compute_page_anchors lines).Sorted (· < ·) ∧
      (compute_page_anchors lines).Nodup) ∧
    (∀ a : Int, a ∈ compute_page_anchors lines ↔ specAnchorSet lines a) ∧
    compute_page_anchors ["a", "========", "b", "c"] = [0, 2] ∧
    compute_page_anchors ["a", "========"] = [0, 1] := by
  refine ⟨⟨sorted_sortedSet _, ?_⟩, ?_, by decide, by decide⟩
  · exact List.Pairwise.imp (fun h => ne_of_lt h) (sorted_sortedSet _)
  · intro a
    unfold compute_page_anchors specAnchorSet
    rw [mem_sortedSet, List.mem_filter]
    simp only [List.mem_cons, List.mem_filterMap, List.mem_enum_iff_getElem?,
      decide_eq_true_eq]
    constructor
    · rintro ⟨hmem, hvalid⟩
      refine ⟨hvalid, ?_⟩
      rcases hmem with h0 | ⟨⟨i, ln⟩, hp, hf⟩
      · exact Or.inl h0
      · right
        dsimp only at hp hf
        split at hf
        · rename_i hdiv
          refine ⟨i, ln, hp, hdiv, ?_⟩
          have hma := Option.some.inj hf
          rw [← hma]
          rfl
        · exact absurd hf (by simp)
    · rintro ⟨hvalid, hrule⟩
      refine ⟨?_, hvalid⟩
      rcases hrule with h0 | ⟨i, ln, hget, hdiv, ha⟩
      · exact Or.inl h0
      · right
        refine ⟨(i, ln), ?_, ?_⟩
        · exact hget
        dsimp only
        rw [if_pos hdiv]
        rw [ha]
        rfl

/-- `nextAction` outside page mode is the clamped speed increment. -/
theorem nextAction_free (st : TState) (hpm : st.page_mode = false) :
    nextAction st = { st with scroll_speed := min (st.scroll_speed + 1) 20 } := by
  unfold nextAction
  rw [hpm]
  rfl

/-- `prevAction` outside page mode is the clamped speed decrement. -/
theorem prevAction_free (st : TState) (hpm : st.page_mode = false) :
    prevAction st = { st with scroll_speed := max (st.scroll_speed - 1) 1 } := by
  unfold prevAction
  rw [hpm]
  rfl

/-- C8: starting in free-scroll with speed in `[1, 20]`, any number of
`next` actions keeps the speed at most 20 and any number of `previous`
actions keeps it at least 1; a single `next` adds exactly 1 below the
cap and is a no-op at 20, and a single `previous` subtracts exactly 1
above the floor and is a no-op at 1. -/
theorem C8_speed_clamp (st : TState) (hpm : st.page_mode = false)
    (hlo : 1 ≤ st.scroll_speed) (hhi : st.scroll_speed ≤ 20) :
    (∀ n : Nat, (nextAction^[n] st).scroll_speed ≤ 20) ∧
    (∀ n : Nat, 1 ≤ (prevAction^[n] st).scroll_speed) ∧
    (nextAction st).scroll_speed =
      (if st.scroll_speed < 20 then st.scroll_speed + 1 else st.scroll_speed) ∧
    (prevAction st).scroll_speed =
      (if 1 < st.scroll_speed then st.scroll_speed - 1 else st.scroll_speed) := by
  have hnext : ∀ n : Nat, (nextAction^[n] st).page_mode = false ∧
      (nextAction^[n] st).scroll_speed ≤ 20 := by
    intro n
    induction n with
    | zero => exact ⟨hpm, hhi⟩
    | succ k ihk =>
      rw [Function.iterate_succ_apply', nextAction_free _ ihk.1]
      exact ⟨ihk.1, by simp⟩
  have hprev : ∀ n : Nat, (prevAction^[n] st).page_mode = false ∧
      1 ≤ (prevAction^[n] st).scroll_speed := by
    intro n
    induction n with
    | zero => exact ⟨hpm, hlo⟩
    | succ k ihk =>
      rw [Function.iterate_succ_apply', prevAction_free _ ihk.1]
      exact ⟨ihk.1, by simp⟩
  refine ⟨fun n => (hnext n).2, fun n => (hprev n).2, ?_, ?_⟩
  · rw [nextAction_free st hpm]
    show min (st.scroll_speed + 1) 20 = _
    omega
  · rw [prevAction_free st hpm]
    show max (st.scroll_speed - 1) 1 = _
    omega

/-- C8 witness: the theorem applied to the concrete free-scroll state
`st0` (speed 3). -/
theorem C8_speed_clamp_witness :
    st0.page_mode = false ∧ 1 ≤ st0.scroll_speed ∧ st0.scroll_speed ≤ 20 ∧
    (nextAction^[25] st0).scroll_speed ≤ 20 ∧
    1 ≤ (prevAction^[25] st0).scroll_speed ∧
    (nextAction st0).scroll_speed = 4 ∧
    (prevAction st0).scroll_speed = 2 := by
  have h := C8_speed_clamp st0 (by decide) (by decide) (by decide)
  refine ⟨by decide, by decide, by decide, h.1 25, h.2.1 25, ?_, ?_⟩
  · rw [h.2.2.1]
    decide
  · rw [h.2.2.2]
    decide

/-- C7: reload with at least one file found replaces the lines, resets
the offset to the viewport height, recomputes the anchors from the new
lines and leaves the mode (and every other field) unchanged; with no
file found the whole state is unchanged. -/
theorem C7_reload (fh : Int) (st : TState) (newLines : List String) :
    reloadAction fh none st = st ∧
    (reloadAction fh (some newLines) st).script_lines = newLines ∧
    (reloadAction fh (some newLines) st).text_y = fh ∧
    (reloadAction fh (some newLines) st).page_anchors =
      compute_page_anchors newLines ∧
    (reloadAction fh (some newLines) st).page_mode = st.page_mode ∧
    (reloadAction fh (some newLines) st).scrolling = st.scrolling ∧
    (reloadAction fh (some newLines) st).blackout_on = st.blackout_on ∧
    (reloadAction fh (some newLines) st).scroll_speed = st.scroll_speed :=
  ⟨rfl, rfl, rfl, rfl, rfl, rfl, rfl, rfl⟩

/-- C7 witness: the theorem applied to a concrete reload of `st0` with
the two-line script, and to a failed glob. -/
theorem C7_reload_witness :
    reloadAction 720 none st0 = st0 ∧
    (reloadAction 720 (some ["x", "========"]) st0).text_y = 720 ∧
    (reloadAction 720 (some ["x", "========"]) st0).page_anchors =
      compute_page_anchors ["x", "========"] ∧
    (reloadAction 720 (some ["x", "========"]) st0).page_mode = st0.page_mode := by
  have h := C7_reload 720 st0 ["x", "========"]
  exact ⟨h.1, h.2.2.1, h.2.2.2.1, h.2.2.2.2.1⟩

/-- With blackout on, one frame is a fixed point of the tick, provided
the standing wrap invariant `0 ≤ text_y + len * line_spacing` (which
every reachable state satisfies: the wrap step itself, every anchor
jump, and the reload reset re-establish it). -/
theorem frameTick_blackout_fixed (fh : Int) (st : TState)
    (hb : st.blackout_on = true)
    (hinv : 0 ≤ st.text_y + (st.script_lines.length : Int) * line_spacing) :
    frameTick fh st = st := by
  unfold frameTick
  rw [hb]
  simp only [Bool.not_true, Bool.and_false]
  rw [if_neg Bool.false_ne_true]
  rw [if_neg (by omega)]

/-- An unpaused free-scroll non-blackout frame: decrement by the speed,
then wrap to the viewport height when the document has fully passed the
top. -/
theorem frameTick_free (fh : Int) (st : TState)
    (hs : st.scrolling = true) (hpm : st.page_mode = false)
    (hb : st.blackout_on = false) :
    frameTick fh st =
      (if st.text_y - st.scroll_speed + (st.script_lines.length : Int) * line_spacing < 0
       then { st with text_y := fh }
       else { st with text_y := st.text_y - st.scroll_speed }) := by
  unfold frameTick
  rw [hs, hpm, hb]
  simp only [Bool.not_false, Bool.and_true, Bool.and_self]
  rfl

/-- A page-mode frame under the wrap invariant: no state change. -/
theorem frameTick_paged (fh : Int) (st : TState)
    (hpm : st.page_mode = true)
    (hinv : 0 ≤ st.text_y + (st.script_lines.length : Int) * line_spacing) :
    frameTick fh st = st := by
  unfold frameTick
  rw [hpm]
  simp only [Bool.not_true, Bool.and_false, Bool.false_and]
  rw [if_neg Bool.false_ne_true]
  rw [if_neg (by omega)]

/-- C6: per rendered frame, in free-scroll with `paused = false` and
blackout off the offset decreases by the speed and is reset to the
viewport height exactly when the decremented offset satisfies
`offset + len * lineSpacing < 0`; in page mode the tick leaves the
state unchanged (under the standing wrap invariant
`0 ≤ offset + len * lineSpacing`, which holds in every reachable
state). -/
theorem C6_frame_tick (fh : Int) (st : TState) :
    (st.scrolling = true → st.page_mode = false → st.blackout_on = false →
      frameTick fh st =
        (if st.text_y - st.scroll_speed + (st.script_lines.length : Int) * line_spacing < 0
         then { st with text_y := fh }
         else { st with text_y := st.text_y - st.scroll_speed })) ∧
    (st.page_mode = true →
      0 ≤ st.text_y + (st.script_lines.length : Int) * line_spacing →
      frameTick fh st = st) :=
  ⟨frameTick_free fh st, frameTick_paged fh st⟩

/-- C6 witness: the theorem applied to `st0` (free-scroll, viewport 720)
and to the paged state `c4stFirst`. -/
theorem C6_frame_tick_witness :
    frameTick 720 st0 = { st0 with text_y := 717 } ∧
    frameTick 720 c4stFirst = c4stFirst := by
  constructor
  · have h := (C6_frame_tick 720 st0).1 (by decide) (by decide) (by decide)
    rw [h]
    decide
  · exact (C6_frame_tick 720 c4stFirst).2 (by decide) (by decide)

/-- C9: the blackout toggle changes only the blackout flag; with
blackout active a free-scroll unpaused session advances no frames
(N ticks leave the state, hence the offset, unchanged), and after
toggling blackout off the next tick resumes from that same offset
(decrementing it by the speed; the last hypothesis rules the wrap
reset out for that tick). -/
theorem C9_blackout_suspends_scroll (fh : Int) (st : TState) (n : Nat) :
    ((toggleBlackout st).text_y = st.text_y ∧
     (toggleBlackout st).page_mode = st.page_mode ∧
     (toggleBlackout st).scroll_speed = st.scroll_speed ∧
     (toggleBlackout st).scrolling = st.scrolling ∧
     (toggleBlackout st).blackout_on = !st.blackout_on) ∧
    (st.blackout_on = true →
      0 ≤ st.text_y + (st.script_lines.length : Int) * line_spacing →
      (frameTick fh)^[n] st = st) ∧
    (st.blackout_on = true → st.scrolling = true → st.page_mode = false →
      0 ≤ st.text_y + (st.script_lines.length : Int) * line_spacing →
      0 ≤ st.text_y - st.scroll_speed + (st.script_lines.length : Int) * line_spacing →
      (frameTick fh (toggleBlackout ((frameTick fh)^[n] st))).text_y =
        st.text_y - st.scroll_speed) := by
  have hfix : st.blackout_on = true →
      0 ≤ st.text_y + (st.script_lines.length : Int) * line_spacing →
      (frameTick fh)^[n] st = st := by
    intro hb hinv
    induction n with
    | zero => rfl
    | succ k ihk =>
      rw [Function.iterate_succ_apply', ihk, frameTick_blackout_fixed fh st hb hinv]
  refine ⟨⟨rfl, rfl, rfl, rfl, rfl⟩, hfix, ?_⟩
  intro hb hs hpm hinv hnowrap
  rw [hfix hb hinv]
  have hb2 : (toggleBlackout st).blackout_on = false := by
    show (!st.blackout_on) = false
    rw [hb]
    exact Bool.not_true
  have hs2 : (toggleBlackout st).scrolling = true := hs
  have hpm2 : (toggleBlackout st).page_mode = false := hpm
  rw [frameTick_free fh (toggleBlackout st) hs2 hpm2 hb2]
  have hc : ¬ ((toggleBlackout st).text_y - (toggleBlackout st).scroll_speed +
      ((toggleBlackout st).script_lines.length : Int) * line_spacing < 0) := by
    show ¬ (st.text_y - st.scroll_speed + (st.script_lines.length : Int) * line_spacing < 0)
    omega
  rw [if_neg hc]
  rfl

/-- C9 witness: the theorem applied to `st0` with blackout enabled,
10 frames suspended, and scrolling resuming at 717 = 720 - 3. -/
theorem C9_blackout_witness :
    (frameTick 720)^[10] { st0 with blackout_on := true } =
      { st0 with blackout_on := true } ∧
    (frameTick 720 (toggleBlackout
      ((frameTick 720)^[10] { st0 with blackout_on := true }))).text_y = 717 := by
  have h := C9_blackout_suspends_scroll 720 { st0 with blackout_on := true } 10
  refine ⟨h.2.1 (by decide) (by decide), ?_⟩
  have h3 := h.2.2 (by decide) (by decide) (by decide) (by decide) (by decide)
  rw [h3]
  decide

/-- Every nonempty decidably-carved subset of a list has a greatest
element in the list. -/
theorem exists_greatest_mem {P : Int → Prop} :
    ∀ {l : List Int}, (∃ a ∈ l, P a) →
      ∃ b ∈ l, P b ∧ ∀ c ∈ l, P c → c ≤ b := by
  intro l
  induction l with
  | nil =>
    rintro ⟨a, ha, -⟩
    simp at ha
  | cons x rest ih =>
    rintro ⟨a, ha, hPa⟩
    by_cases hr : ∃ a' ∈ rest, P a'
    · obtain ⟨b, hb, hPb, hmax⟩ := ih hr
      by_cases hx : P x ∧ b < x
      · refine ⟨x, List.mem_cons_self x rest, hx.1, ?_⟩
        intro c hc hPc
        rcases List.mem_cons.mp hc with h | h
        · omega
        · have := hmax c h hPc
          omega
      · refine ⟨b, List.mem_cons_of_mem x hb, hPb, ?_⟩
        intro c hc hPc
        rcases List.mem_cons.mp hc with h | h
        · subst h
          by_contra hlt
          exact hx ⟨hPc, by omega⟩
        · exact hmax c h hPc
    · have hax : a = x := by
        rcases List.mem_cons.mp ha with h | h
        · exact h
        · exact absurd ⟨a, h, hPa⟩ hr
      subst hax
      refine ⟨a, List.mem_cons_self a rest, hPa, ?_⟩
      intro c hc hPc
      rcases List.mem_cons.mp hc with h | h
      · omega
      · exact absurd ⟨c, h, hPc⟩ hr

/-- C4: in page mode (whose `next`/`previous` are `jump_next_page` /
`jump_prev_page`, last conjunct), with the anchor list sorted as
`compute_page_anchors` produces it: `next` jumps to the smallest anchor
strictly greater than `topIndex + 1` and is the identity when none
exists; `previous` jumps to the largest anchor strictly less than
`topIndex` and is the identity when none exists. -/
theorem C4_page_navigation (st : TState)
    (hsort : st.page_anchors.Sorted (· < ·)) :
    ((∀ a ∈ st.page_anchors, a ≤ get_current_top_index st + 1) →
      jump_next_page st = st) ∧
    (∀ a ∈ st.page_anchors, get_current_top_index st + 1 < a →
      ∃ b ∈ st.page_anchors, get_current_top_index st + 1 < b ∧
        (∀ c ∈ st.page_anchors, get_current_top_index st + 1 < c → b ≤ c) ∧
        jump_next_page st = jump_to_anchor st b) ∧
    ((∀ a ∈ st.page_anchors, get_current_top_index st ≤ a) →
      jump_prev_page st = st) ∧
    (∀ a ∈ st.page_anchors, a < get_current_top_index st →
      ∃ b ∈ st.page_anchors, b < get_current_top_index st ∧
        (∀ c ∈ st.page_anchors, c < get_current_top_index st → c ≤ b) ∧
        jump_prev_page st = jump_to_anchor st b) ∧
    (st.page_mode = true →
      nextAction st = jump_next_page st ∧ prevAction st = jump_prev_page st) := by
  refine ⟨?_, ?_, ?_, ?_, ?_⟩
  · intro hnone
    unfold jump_next_page
    have hf : st.page_anchors.find?
        (fun a => decide (get_current_top_index st + 1 < a)) = none := by
      rw [List.find?_eq_none]
      intro x hx
      simp only [decide_eq_true_eq]
      have := hnone x hx
      omega
    rw [hf]
  · intro a ha hgt
    have hsome : (st.page_anchors.find?
        (fun x => decide (get_current_top_index st + 1 < x))).isSome := by
      rw [List.find?_isSome]
      exact ⟨a, ha, by simp only [decide_eq_true_eq]; omega⟩
    obtain ⟨b, hfb⟩ := Option.isSome_iff_exists.mp hsome
    refine ⟨b, List.mem_of_find?_eq_some hfb, ?_, ?_, ?_⟩
    · have := List.find?_some hfb
      simpa using this
    · intro c hc hcgt
      exact find?_sorted_min hsort hfb c hc (by simp only [decide_eq_true_eq]; omega)
    · unfold jump_next_page
      rw [hfb]
  · intro hnone
    unfold jump_prev_page
    have hl : prevAnchorLoop (get_current_top_index st) st.page_anchors none = none :=
      prevAnchorLoop_head_stop (fun a ha => by
        have := hnone a ha
        omega)
    rw [hl]
  · intro a ha hlt
    obtain ⟨b, hb, hPb, hmax⟩ :=
      @exists_greatest_mem (fun c => c < get_current_top_index st)
        st.page_anchors ⟨a, ha, hlt⟩
    have hl : prevAnchorLoop (get_current_top_index st) st.page_anchors none = some b :=
      prevAnchorLoop_sorted_max hsort hb hPb hmax none
    refine ⟨b, hb, hPb, hmax, ?_⟩
    unfold jump_prev_page
    rw [hl]
  · intro hpm
    constructor
    · unfold nextAction
      rw [hpm]
      rfl
    · unfold prevAction
      rw [hpm]
      rfl

/-- C4 witness: on anchors `[0, 5, 10]`, `next` at the last anchor and
`previous` at the first are no-ops, and `next` at the first anchor
jumps to anchor 5. -/
theorem C4_page_navigation_witness :
    jump_next_page c4stLast = c4stLast ∧
    jump_prev_page c4stFirst = c4stFirst ∧
    jump_next_page c4stFirst = jump_to_anchor c4stFirst 5 := by
  have hlast := C4_page_navigation c4stLast (by decide)
  have hfirst := C4_page_navigation c4stFirst (by decide)
  refine ⟨hlast.1 (by decide), hfirst.2.2.1 (by decide), ?_⟩
  obtain ⟨b, hb, hgt, hmin, heq⟩ := hfirst.2.1 5 (by decide) (by decide)
  have htop : get_current_top_index c4stFirst = 0 := by decide
  have hmem : b = 0 ∨ b = 5 ∨ b = 10 := by
    have h := hb
    simp only [c4stFirst, c4stLast, st0, List.mem_cons, List.not_mem_nil,
      or_false] at h
    exact h
  have h5 := hmin 5 (by decide) (by decide)
  rw [htop] at hgt
  have hb5 : b = 5 := by omega
  rw [heq, hb5]

/-- The toggle branch entered from free-scroll: flip into page mode and
align to the candidate anchor. -/
theorem togglePageMode_enter (st : TState) (hpm : st.page_mode = false) :
    togglePageMode st =
      jump_to_anchor { st with page_mode := true }
        (candidateLoop (get_current_top_index st) st.page_anchors 0) := by
  unfold togglePageMode
  rw [hpm]
  rfl

/-- The toggle branch entered from page mode: flip out and keep the
current top line at the anchor row. -/
theorem togglePageMode_exit (st : TState) (hpm : st.page_mode = true) :
    togglePageMode st =
      { st with page_mode := false,
                text_y := page_anchor_y - get_current_top_index st * line_spacing } := by
  unfold togglePageMode
  rw [hpm]
  rfl

/-- C10: from a state whose offset is anchor-aligned
(`offset = page_anchor_y - a * line_spacing` for an anchor `a` of the
sorted, non-negative anchor list), each of `jump_next_page`,
`jump_prev_page` and the switch-into-paged alignment yields an offset
that is again anchor-aligned (the no-eligible-anchor cases leave the
offset at the given anchor). -/
theorem C10_anchor_quantization (st : TState)
    (hsort : st.page_anchors.Sorted (· < ·))
    (hnn : ∀ x ∈ st.page_anchors, 0 ≤ x)
    (a : Int) (ha : a ∈ st.page_anchors)
    (hy : st.text_y = page_anchor_y - a * line_spacing) :
    (∃ b ∈ st.page_anchors,
      (jump_next_page st).text_y = page_anchor_y - b * line_spacing) ∧
    (∃ b ∈ st.page_anchors,
      (jump_prev_page st).text_y = page_anchor_y - b * line_spacing) ∧
    (st.page_mode = false →
      ∃ b ∈ st.page_anchors,
        (togglePageMode st).text_y = page_anchor_y - b * line_spacing) := by
  refine ⟨?_, ?_, ?_⟩
  · unfold jump_next_page
    cases hf : st.page_anchors.find?
        (fun x => decide (get_current_top_index st + 1 < x)) with
    | none => exact ⟨a, ha, hy⟩
    | some b => exact ⟨b, List.mem_of_find?_eq_some hf, rfl⟩
  · unfold jump_prev_page
    cases hl : prevAnchorLoop (get_current_top_index st) st.page_anchors none with
    | none => exact ⟨a, ha, hy⟩
    | some b =>
      rcases prevAnchorLoop_mem hl with hmem | habs
      · exact ⟨b, hmem, rfl⟩
      · exact absurd habs (by simp)
  · intro hpm
    have htop : get_current_top_index st = a := top_of_anchor st a (hnn a ha) hy
    have hcl : candidateLoop (get_current_top_index st) st.page_anchors 0 =
        get_current_top_index st :=
      candidateLoop_sorted_self hsort (by rw [htop]; exact ha) 0
    rw [togglePageMode_enter st hpm]
    refine ⟨get_current_top_index st, by rw [htop]; exact ha, ?_⟩
    show page_anchor_y -
        candidateLoop (get_current_top_index st) st.page_anchors 0 * line_spacing =
      page_anchor_y - get_current_top_index st * line_spacing
    rw [hcl]

/-- C10 witness: the theorem applied to the anchor-0-aligned free-scroll
state over anchors `[0, 5, 10]`. -/
theorem C10_anchor_quantization_witness :
    (∃ b ∈ ({ c4stFirst with page_mode := false } : TState).page_anchors,
      (jump_next_page { c4stFirst with page_mode := false }).text_y =
        page_anchor_y - b * line_spacing) ∧
    (∃ b ∈ ({ c4stFirst with page_mode := false } : TState).page_anchors,
      (jump_prev_page { c4stFirst with page_mode := false }).text_y =
        page_anchor_y - b * line_spacing) ∧
    (∃ b ∈ ({ c4stFirst with page_mode := false } : TState).page_anchors,
      (togglePageMode { c4stFirst with page_mode := false }).text_y =
        page_anchor_y - b * line_spacing) := by
  have h := C10_anchor_quantization { c4stFirst with page_mode := false }
    (by decide) (by decide) 0 (by decide) (by decide)
  exact ⟨h.1, h.2.1, h.2.2 (by decide)⟩

/-- C3 counterexample: on the divider-free 8-line script with its only
anchor 0 and the free-scroll offset -300 (top line 7, itself a multiple
of `line_spacing` away from the grid origin), toggling mode twice lands
at offset 120, seven line heights away from the pre-toggle offset —
not equal to it up to rounding to the nearest `line_spacing`
multiple. -/
theorem C3_roundtrip_counterexample :
    c3st.page_mode = false ∧ c3st.page_anchors = [0] ∧
    c3st.text_y = -300 ∧ c3st.text_y % line_spacing = 0 ∧
    (togglePageMode (togglePageMode c3st)).text_y = 120 ∧
    ¬ (2 * |(togglePageMode (togglePageMode c3st)).text_y - c3st.text_y| ≤
        line_spacing) := by
  decide

/-- On a `<`-sorted list, `candidateLoop` finds the greatest element at
or below `cur` when one exists. -/
theorem candidateLoop_sorted_max {cur : Int} {l : List Int} {b : Int}
    (hs : l.Sorted (· < ·)) (hb : b ∈ l) (hble : b ≤ cur)
    (hmax : ∀ c ∈ l, c ≤ cur → c ≤ b) (c0 : Int) :
    candidateLoop cur l c0 = b := by
  induction l generalizing c0 with
  | nil => simp at hb
  | cons a rest ih =>
    rw [List.sorted_cons] at hs
    have ha : a ≤ cur := by
      rcases List.mem_cons.mp hb with h | h
      · omega
      · have := hs.1 b h
        omega
    simp only [candidateLoop, if_pos ha]
    by_cases hbr : b ∈ rest
    · exact ih hs.2 hbr (fun c hc hcc => hmax c (List.mem_cons_of_mem a hc) hcc) a
    · have hba : b = a := by
        rcases List.mem_cons.mp hb with h | h
        · exact h
        · exact absurd h hbr
      subst hba
      exact candidateLoop_head_stop (fun c hc => by
        have h1 := hs.1 c hc
        intro hcc
        have h2 := hmax c (List.mem_cons_of_mem b hc) hcc
        omega)

/-- A `FreeScroll → Paged → FreeScroll` double toggle lands at the
candidate-anchor-aligned offset (for a non-negative candidate, the
rounding of the intermediate top index back is exact). -/
theorem double_toggle_offset (st : TState) (hpm : st.page_mode = false)
    (hcand : 0 ≤ candidateLoop (get_current_top_index st) st.page_anchors 0) :
    (togglePageMode (togglePageMode st)).text_y =
      page_anchor_y -
        candidateLoop (get_current_top_index st) st.page_anchors 0 * line_spacing := by
  have h1 : togglePageMode st =
      jump_to_anchor { st with page_mode := true }
        (candidateLoop (get_current_top_index st) st.page_anchors 0) :=
    togglePageMode_enter st hpm
  have hpm1 : (togglePageMode st).page_mode = true := by
    rw [h1]
    rfl
  have hy1 : (togglePageMode st).text_y =
      page_anchor_y -
        candidateLoop (get_current_top_index st) st.page_anchors 0 * line_spacing := by
    rw [h1]
    rfl
  have htop1 : get_current_top_index (togglePageMode st) =
      candidateLoop (get_current_top_index st) st.page_anchors 0 :=
    top_of_anchor _ _ hcand hy1
  rw [togglePageMode_exit _ hpm1]
  show page_anchor_y - get_current_top_index (togglePageMode st) * line_spacing = _
  rw [htop1]

/-- C3 (amended): toggling `FreeScroll → Paged → FreeScroll` with no
intervening navigation yields a final offset of
`page_anchor_y - a * line_spacing` where `a` is the greatest anchor at
or below the pre-toggle top index (0 when no anchor is at or below
it); when that top index is itself an anchor and its rounding is not
clamped at 0, the final offset equals the pre-toggle offset up to
rounding to the nearest `line_spacing` multiple (within half a line
height). -/
theorem C3_mode_toggle_amended (st : TState)
    (hpm : st.page_mode = false)
    (hsort : st.page_anchors.Sorted (· < ·))
    (hnn : ∀ x ∈ st.page_anchors, 0 ≤ x) :
    ((∃ a ∈ st.page_anchors, a ≤ get_current_top_index st) →
      ∃ b ∈ st.page_anchors, b ≤ get_current_top_index st ∧
        (∀ c ∈ st.page_anchors, c ≤ get_current_top_index st → c ≤ b) ∧
        (togglePageMode (togglePageMode st)).text_y =
          page_anchor_y - b * line_spacing) ∧
    ((∀ a ∈ st.page_anchors, ¬ a ≤ get_current_top_index st) →
      (togglePageMode (togglePageMode st)).text_y =
        page_anchor_y - 0 * line_spacing) ∧
    (0 ≤ pyRoundDiv (page_anchor_y - st.text_y) line_spacing →
      get_current_top_index st ∈ st.page_anchors →
      2 * |(togglePageMode (togglePageMode st)).text_y - st.text_y| ≤
        line_spacing) := by
  refine ⟨?_, ?_, ?_⟩
  · rintro ⟨a, ha, hale⟩
    obtain ⟨b, hb, hble, hmax⟩ :=
      @exists_greatest_mem (fun c => c ≤ get_current_top_index st)
        st.page_anchors ⟨a, ha, hale⟩
    have hcl : candidateLoop (get_current_top_index st) st.page_anchors 0 = b :=
      candidateLoop_sorted_max hsort hb hble hmax 0
    refine ⟨b, hb, hble, hmax, ?_⟩
    rw [double_toggle_offset st hpm (by rw [hcl]; exact hnn b hb), hcl]
  · intro hnone
    have hcl : candidateLoop (get_current_top_index st) st.page_anchors 0 = 0 :=
      candidateLoop_head_stop hnone
    rw [double_toggle_offset st hpm (by omega), hcl]
  · intro hr hmem
    have hcl : candidateLoop (get_current_top_index st) st.page_anchors 0 =
        get_current_top_index st := candidateLoop_sorted_self hsort hmem 0
    rw [double_toggle_offset st hpm (by rw [hcl]; exact le_max_left 0 _), hcl]
    have hcur : get_current_top_index st =
        pyRoundDiv (page_anchor_y - st.text_y) line_spacing := by
      unfold get_current_top_index
      omega
    rw [hcur]
    have hb := pyRoundDiv_sub_bounds (page_anchor_y - st.text_y) line_spacing
      line_spacing_pos
    have hx : page_anchor_y -
        pyRoundDiv (page_anchor_y - st.text_y) line_spacing * line_spacing - st.text_y =
        (page_anchor_y - st.text_y) -
          pyRoundDiv (page_anchor_y - st.text_y) line_spacing * line_spacing := by
      ring
    rw [hx]
    have h2abs : (2 : Int) * |(page_anchor_y - st.text_y) -
        pyRoundDiv (page_anchor_y - st.text_y) line_spacing * line_spacing| =
        |2 * ((page_anchor_y - st.text_y) -
          pyRoundDiv (page_anchor_y - st.text_y) line_spacing * line_spacing)| := by
      rw [abs_mul]
      norm_num
    rw [h2abs]
    exact abs_le.mpr hb

/-- C3 witness: the amended theorem applied to the counterexample state
`c3st` (top index 7, not an anchor: the greatest-anchor formula gives
anchor 0) and to the anchor-0-aligned free-scroll state over anchors
`[0, 5, 10]` (top index 0, an anchor: restoration within half a line
height). -/
theorem C3_mode_toggle_amended_witness :
    (∃ b ∈ c3st.page_anchors, b ≤ get_current_top_index c3st ∧
      (∀ c ∈ c3st.page_anchors, c ≤ get_current_top_index c3st → c ≤ b) ∧
      (togglePageMode (togglePageMode c3st)).text_y =
        page_anchor_y - b * line_spacing) ∧
    2 * |(togglePageMode (togglePageMode { c4stFirst with page_mode := false })).text_y -
        ({ c4stFirst with page_mode := false } : TState).text_y| ≤ line_spacing := by
  have h1 := C3_mode_toggle_amended c3st (by decide) (by decide) (by decide)
  have h2 := C3_mode_toggle_amended { c4stFirst with page_mode := false }
    (by decide) (by decide) (by decide)
  exact ⟨h1.1 ⟨0, by decide, by decide⟩, h2.2.2 (by decide) (by decide)⟩

/-- C5 witness: the theorem applied to the four-line reference
script. -/
theorem C5_anchor_derivation_rule_witness :
    compute_page_anchors ["a", "========", "b", "c"] = [0, 2] ∧
    (compute_page_anchors ["a", "========", "b", "c"]).Sorted (· < ·) := by
  have h := C5_anchor_derivation_rule ["a", "========", "b", "c"]
  exact ⟨h.2.2.1, h.1.1⟩
